import Mathlib

/-!
Shallow embedding of the DNS wire-format codec from the repository
`codecrafters-dns-server-rust` (directory `src/src/message/`), together
with theorems settling the specification claims.

Bytes are modelled as `Nat` (each byte is `< 256`; theorems that quantify
over buffers carry that bound as a hypothesis where it matters).  Bit-field
extractions written in the source with `&` and `>>` on masks of the shape
`0b0...01...10...0` are embedded as the equal `/ 2^k % 2^n` arithmetic;
each such definition carries a comment with the original mask expression.

Rust `Result<T, E>` is embedded as `Except E T`.  Code paths that can
panic (`assert!`, `todo!`, `expect`, slice indexing, `bytes::Buf` reads
past the end) return a dedicated `panic` outcome, and the one genuinely
recursive operation (`expand_label`) is driven by explicit fuel, with a
`diverge` outcome when the fuel runs out.
-/

namespace DnsCodec

/-- Outcome of a fallible Rust computation that may also panic. -/
inductive PRes (ε : Type) (α : Type) : Type
  | ok (a : α)
  | err (e : ε)
  | panic
  deriving DecidableEq, Repr

/-! ## `src/src/message/label.rs` -/

/-- `LabelError` from `label.rs`. -/
inductive LabelError : Type
  | maxSizeReached (size : Nat)
  | incompleteBuffer
  | falseEncodedLength (size : Nat)
  deriving DecidableEq, Repr

/-- `pub struct CharacterString(pub Vec<u8>);` from `label.rs`. -/
structure CharacterString : Type where
  bytes : List Nat
  deriving DecidableEq, Repr

/-- `pub enum Label { Sequence(Vec<CharacterString>), Compressed(u16) }` from `label.rs`. -/
inductive Label : Type
  | sequence (seq : List CharacterString)
  | compressed (offset : Nat)
  deriving DecidableEq, Repr

/-- `parse_character_string` from `label.rs`: match on `value.len()`;
`0` is `IncompleteBuffer`; a length over 255 is `MaxSizeReached` (note:
this is the length of the whole remaining buffer, not of the encoded
string); otherwise `value[0]` must be smaller than the buffer length and
the string is `value[1..count+1]`, with `count + 1` bytes consumed. -/
def parse_character_string (value : List Nat) :
    Except LabelError (CharacterString × Nat) :=
  if value.length = 0 then .error .incompleteBuffer
  else if 255 < value.length then .error (.maxSizeReached value.length)
  else
    let count := value.headD 0
    if count < value.length then
      .ok (⟨(value.drop 1).take count⟩, count + 1)
    else .error (.falseEncodedLength count)

theorem parse_character_string_consumed_pos {value : List Nat}
    {s : CharacterString} {n : Nat}
    (h : parse_character_string value = .ok (s, n)) : 0 < n := by
  unfold parse_character_string at h
  split at h
  · exact absurd h (by simp)
  · split at h
    · exact absurd h (by simp)
    · simp only at h
      split at h
      · simp only [Except.ok.injEq, Prod.mk.injEq] at h
        omega
      · exact absurd h (by simp)

theorem parse_character_string_cons {n : Nat} {l : List Nat}
    (hlen : l.length + 1 ≤ 255) (hn : n ≤ l.length) :
    parse_character_string (n :: l) = .ok (⟨l.take n⟩, n + 1) := by
  unfold parse_character_string
  rw [if_neg (by simp), if_neg (by simp only [List.length_cons]; omega)]
  simp only [List.headD_cons]
  rw [if_pos (by simp only [List.length_cons]; omega)]
  simp only [List.drop_succ_cons, List.drop_zero]

theorem parse_character_string_consumed_le {value : List Nat}
    {s : CharacterString} {n : Nat}
    (h : parse_character_string value = .ok (s, n)) : n ≤ value.length := by
  unfold parse_character_string at h
  split at h
  · exact absurd h (by simp)
  · split at h
    · exact absurd h (by simp)
    · simp only at h
      split at h
      · simp only [Except.ok.injEq, Prod.mk.injEq] at h
        omega
      · exact absurd h (by simp)

/-- The literal-label loop inside `parse_label` from `label.rs`: read
character strings until a zero length byte; if the buffer empties before
the terminator, fail with `IncompleteBuffer`.  Returns the strings and the
number of bytes consumed before the terminator.  The loop is driven by a
structural counter seeded with the buffer length; since every successful
`parse_character_string` consumes at least one byte
(`parse_character_string_consumed_pos`), the counter never runs out
before the buffer does, so the counter-exhausted arm (which repeats the
empty-buffer answer) is unreachable. -/
def parseLabelLoop : Nat → List Nat → Except LabelError (List CharacterString × Nat)
  | _, [] => .error .incompleteBuffer
  | 0, _ :: _ => .error .incompleteBuffer
  | fuel + 1, b0 :: rest =>
    if b0 = 0 then .ok ([], 0)
    else
      match parse_character_string (b0 :: rest) with
      | .error e => .error e
      | .ok (s, n) =>
        let buf' := (b0 :: rest).drop n
        if buf' = [] then .error .incompleteBuffer
        else
          match parseLabelLoop fuel buf' with
          | .error e => .error e
          | .ok (ss, off) => .ok (s :: ss, n + off)

/-- `parse_label` from `label.rs`.  An empty buffer is `IncompleteBuffer`.
A first byte whose top two bits are `11` (`(length & 0b1100_0000) >> 6 == 3`,
i.e. `value[0] / 64 % 4 = 3`) is a compression pointer: the offset is
`get_u16() ^ 0b1100_0000_0000_0000` and the returned count is
`buf.remaining()` — the bytes left AFTER the 2-byte pointer, not the bytes
consumed (`get_u16` panics when fewer than 2 bytes remain).  Otherwise the
literal loop runs and the count is the consumed bytes plus 1 for the
terminator. -/
def parse_label : List Nat → PRes LabelError (Label × Nat)
  | [] => .err .incompleteBuffer
  | b0 :: rest =>
    if b0 / 64 % 4 = 3 then
      match rest with
      | b1 :: rest' => .ok (.compressed ((b0 * 256 + b1) ^^^ 49152), rest'.length)
      | [] => .panic
    else
      match parseLabelLoop (b0 :: rest).length (b0 :: rest) with
      | .error e => .err e
      | .ok (ss, off) => .ok (.sequence ss, off + 1)

/-- `From<CharacterString> for Vec<u8>` from `label.rs`: the length byte
(`len as u8`, i.e. `% 256`) followed by the content. -/
def encodeCharacterString (s : CharacterString) : List Nat :=
  (s.bytes.length % 256) :: s.bytes

/-- big-endian `put_u16` (`bytes::BufMut`): two bytes of the value. -/
def putU16 (n : Nat) : List Nat := [n / 256 % 256, n % 256]

/-- big-endian `put_u32` (`bytes::BufMut`): four bytes of the value. -/
def putU32 (n : Nat) : List Nat :=
  [n / 16777216 % 256, n / 65536 % 256, n / 256 % 256, n % 256]

/-- `From<Label> for Vec<u8>` from `label.rs`: a sequence is each string's
encoding followed by a zero byte; a pointer is
`put_u16(offset | 0b1100_0000_0000_0000)`. -/
def encodeLabel : Label → List Nat
  | .sequence seq => (seq.flatMap encodeCharacterString) ++ [0]
  | .compressed offset => putU16 (offset ||| 49152)

/-- The segment check inside `Label::parse` from `label.rs`: an empty
segment is `IncompleteBuffer`, one over 255 bytes is `MaxSizeReached`. -/
def labelParseSegments : List (List Nat) → Except LabelError (List CharacterString)
  | [] => .ok []
  | seg :: rest =>
    if seg.length = 0 then .error .incompleteBuffer
    else if 255 < seg.length then .error (.maxSizeReached seg.length)
    else
      match labelParseSegments rest with
      | .error e => .error e
      | .ok ss => .ok (⟨seg⟩ :: ss)

/-- Rust's `slice::split(|&e| e == b'.')`: the segments between `.`
(byte 46) separators; `n` separators yield `n + 1` segments. -/
def splitDot : List Nat → List (List Nat)
  | [] => [[]]
  | x :: xs =>
    match splitDot xs with
    | s :: ss => if x = 46 then [] :: s :: ss else (x :: s) :: ss
    | [] => [[]]

/-- `Label::parse` from `label.rs`: split the input on `b'.'` and collect
the segments as character strings. -/
def Label.parse (value : List Nat) : Except LabelError Label :=
  match labelParseSegments (splitDot value) with
  | .error e => .error e
  | .ok ss => .ok (.sequence ss)

/-! ## `src/src/message/header.rs` -/

/-- `PacketType` from `header.rs`. -/
inductive PacketType : Type
  | query
  | response
  deriving DecidableEq, Repr

/-- `OperationCode` from `header.rs`. -/
inductive OperationCode : Type
  | standardQuery
  | inverseQuery
  | statusRequest
  | reserved (code : Nat)
  deriving DecidableEq, Repr

/-- `From<OperationCode> for u16` from `header.rs`. -/
def OperationCode.toU16 : OperationCode → Nat
  | .standardQuery => 0
  | .inverseQuery => 1
  | .statusRequest => 2
  | .reserved code => code

/-- `HeaderError` from `header.rs` (response status codes; `Format = 1`). -/
inductive HeaderError : Type
  | format
  | serverFailure
  | name
  | notImplemented
  | resfused
  deriving DecidableEq, Repr

/-- The numeric response code of a `HeaderError` (`code as u16`). -/
def HeaderError.toU16 : HeaderError → Nat
  | .format => 1
  | .serverFailure => 2
  | .name => 3
  | .notImplemented => 4
  | .resfused => 5

/-- `HeaderParseError` from `header.rs`. -/
inductive HeaderParseError : Type
  | sliceSizeMismatch (size : Nat)
  | reservedOperationCode (code : Nat)
  | reservedResponseCode (code : Nat)
  | reservedZFlag (code : Nat)
  deriving DecidableEq, Repr

instance {ε α : Type} [DecidableEq ε] [DecidableEq α] : DecidableEq (Except ε α) :=
  fun a b =>
    match a, b with
    | .ok x, .ok y => if h : x = y then .isTrue (by rw [h]) else .isFalse (by simp [h])
    | .error x, .error y => if h : x = y then .isTrue (by rw [h]) else .isFalse (by simp [h])
    | .ok _, .error _ => .isFalse (by simp)
    | .error _, .ok _ => .isFalse (by simp)

/-- `Header` from `header.rs` (`response: Result<(), HeaderError>` becomes
`Except HeaderError Unit`; the misspelling `addtional_count` is kept). -/
structure Header : Type where
  id : Nat
  typ : PacketType
  operationCode : OperationCode
  authoritativeAnswer : Bool
  truncatedMessage : Bool
  recursionDesired : Bool
  recursionAvailable : Bool
  response : Except HeaderError Unit
  questionCount : Nat
  answerCount : Nat
  authorityCount : Nat
  addtionalCount : Nat
  deriving DecidableEq, Repr

/-- The opcode match inside `TryFrom<[u8; 12]> for Header`: values 3..=15
are only logged (`eprintln!`) and kept as `Reserved(code)` — the
`return Err(ReservedOperationCode(code))` is commented out in the
source. -/
def opcodeOfNibble (code : Nat) : OperationCode :=
  if code = 0 then .standardQuery
  else if code = 1 then .inverseQuery
  else if code = 2 then .statusRequest
  else .reserved code

/-- The response-code match inside `TryFrom<[u8; 12]> for Header`: 0 is
`Ok(())`, 1..=5 the five defined errors, and 6..=15 a hard
`ReservedResponseCode` decode error. -/
def rcodeOfNibble (code : Nat) : Except HeaderParseError (Except HeaderError Unit) :=
  if code = 0 then .ok (.ok ())
  else if code = 1 then .ok (.error .format)
  else if code = 2 then .ok (.error .serverFailure)
  else if code = 3 then .ok (.error .name)
  else if code = 4 then .ok (.error .notImplemented)
  else if code = 5 then .ok (.error .resfused)
  else .error (.reservedResponseCode code)

/-- `TryFrom<[u8; 12]> for Header` from `header.rs`, on a 12-byte list.
The flag word is `b2 * 256 + b3`.  Bit extractions use `/`-`%` arithmetic
equal to the source masks: `flags & (1 << 15)` is `flags / 2^15 % 2`,
`(flags & 0b0111_1000_0000_0000) >> 11` is `flags / 2^11 % 2^4`, each
single-bit flag `flags & (1 << k)` is `flags / 2^k % 2`, and
`flags & 0b1111` is `flags % 16`.  A non-zero `Z` field is only logged
(the error return is commented out in the source). -/
def headerTryFrom12 (b : List Nat) : Except HeaderParseError Header :=
  let id := b.getD 0 0 * 256 + b.getD 1 0
  let flags := b.getD 2 0 * 256 + b.getD 3 0
  let typ := if flags / 32768 % 2 ≠ 0 then PacketType.response else PacketType.query
  let operationCode := opcodeOfNibble (flags / 2048 % 16)
  let authoritativeAnswer := flags / 1024 % 2 ≠ 0
  let truncatedMessage := flags / 512 % 2 ≠ 0
  let recursionDesired := flags / 256 % 2 ≠ 0
  let recursionAvailable := flags / 128 % 2 ≠ 0
  match rcodeOfNibble (flags % 16) with
  | .error e => .error e
  | .ok response => .ok ⟨id, typ, operationCode, authoritativeAnswer,
      truncatedMessage, recursionDesired, recursionAvailable, response,
      b.getD 4 0 * 256 + b.getD 5 0, b.getD 6 0 * 256 + b.getD 7 0,
      b.getD 8 0 * 256 + b.getD 9 0, b.getD 10 0 * 256 + b.getD 11 0⟩

/-- `TryFrom<&[u8]> for Header` from `header.rs`: exactly 12 bytes or
`SliceSizeMismatch`. -/
def headerTryFromSlice (b : List Nat) : Except HeaderParseError Header :=
  if b.length = 12 then headerTryFrom12 b else .error (.sliceSizeMismatch b.length)

/-- `header.typ as u16` (`PacketType` is `Query = 0`, `Response = 1`). -/
def PacketType.toU16 : PacketType → Nat
  | .query => 0
  | .response => 1

/-- `header.authoritative_answer as u16` and the other `bool as u16`
casts. -/
def boolBit (b : Bool) : Nat := if b then 1 else 0

/-- The response-code word written by `From<Header> for [u8; 12]`:
0 for `Ok(())`, `code as u16` for `Err(code)`. -/
def responseToU16 : Except HeaderError Unit → Nat
  | .ok _ => 0
  | .error code => code.toU16

/-- `From<Header> for [u8; 12]` from `header.rs`: id, the packed flag
word (`qr | opcode << 11 | aa << 10 | tc << 9 | rd << 8 | ra << 7 | z |
rcode` with `z = 0`), and the four counts, each big-endian. -/
def headerToBytes (h : Header) : List Nat :=
  let flags := h.typ.toU16 <<< 15 ||| h.operationCode.toU16 <<< 11 |||
    boolBit h.authoritativeAnswer <<< 10 ||| boolBit h.truncatedMessage <<< 9 |||
    boolBit h.recursionDesired <<< 8 ||| boolBit h.recursionAvailable <<< 7 |||
    0 ||| responseToU16 h.response
  putU16 h.id ++ putU16 flags ++ putU16 h.questionCount ++
    putU16 h.answerCount ++ putU16 h.authorityCount ++ putU16 h.addtionalCount

/-- `HeaderBuilder::new().id(id).build()` from `header.rs`: defaults are
`Response`, `StandardQuery`, all flags false, status `Ok`, all counts 0. -/
def Header.build (id : Nat) : Header :=
  ⟨id, .response, .standardQuery, false, false, false, false, .ok (), 0, 0, 0, 0⟩

/-! ## `src/src/message/type_class.rs` -/

/-- `ResourceType` from `type_class.rs` (wire codes 1..=16). -/
inductive ResourceType : Type
  | A | NS | MD | MF | CNAME | SOA | MB | MG | MR | NULL
  | WKS | PTR | HINFO | MINFO | MX | TXT
  deriving DecidableEq, Repr

/-- The wire code of a `ResourceType` (`typ as u16`). -/
def ResourceType.toU16 : ResourceType → Nat
  | .A => 1 | .NS => 2 | .MD => 3 | .MF => 4 | .CNAME => 5 | .SOA => 6
  | .MB => 7 | .MG => 8 | .MR => 9 | .NULL => 10 | .WKS => 11 | .PTR => 12
  | .HINFO => 13 | .MINFO => 14 | .MX => 15 | .TXT => 16

/-- `TryFrom<u16> for ResourceType` from `type_class.rs`; the error carries
the unregistered code (`UnregisteredType`). -/
def ResourceType.tryFromU16 (value : Nat) : Except Nat ResourceType :=
  match value with
  | 1 => .ok .A | 2 => .ok .NS | 3 => .ok .MD | 4 => .ok .MF
  | 5 => .ok .CNAME | 6 => .ok .SOA | 7 => .ok .MB | 8 => .ok .MG
  | 9 => .ok .MR | 10 => .ok .NULL | 11 => .ok .WKS | 12 => .ok .PTR
  | 13 => .ok .HINFO | 14 => .ok .MINFO | 15 => .ok .MX | 16 => .ok .TXT
  | code => .error code

/-- `QuestionType` from `type_class.rs` (types 1..=16 plus the four
meta-types 252..=255). -/
inductive QuestionType : Type
  | A | NS | MD | MF | CNAME | SOA | MB | MG | MR | NULL
  | WKS | PTR | HINFO | MINFO | MX | TXT | AXFR | MAILB | MAILA | ALL
  deriving DecidableEq, Repr

/-- The wire code of a `QuestionType` (`typ as u16`). -/
def QuestionType.toU16 : QuestionType → Nat
  | .A => 1 | .NS => 2 | .MD => 3 | .MF => 4 | .CNAME => 5 | .SOA => 6
  | .MB => 7 | .MG => 8 | .MR => 9 | .NULL => 10 | .WKS => 11 | .PTR => 12
  | .HINFO => 13 | .MINFO => 14 | .MX => 15 | .TXT => 16
  | .AXFR => 252 | .MAILB => 253 | .MAILA => 254 | .ALL => 255

/-- `TryFrom<u16> for QuestionType` from `type_class.rs`. -/
def QuestionType.tryFromU16 (value : Nat) : Except Nat QuestionType :=
  match value with
  | 1 => .ok .A | 2 => .ok .NS | 3 => .ok .MD | 4 => .ok .MF
  | 5 => .ok .CNAME | 6 => .ok .SOA | 7 => .ok .MB | 8 => .ok .MG
  | 9 => .ok .MR | 10 => .ok .NULL | 11 => .ok .WKS | 12 => .ok .PTR
  | 13 => .ok .HINFO | 14 => .ok .MINFO | 15 => .ok .MX | 16 => .ok .TXT
  | 252 => .ok .AXFR | 253 => .ok .MAILB | 254 => .ok .MAILA | 255 => .ok .ALL
  | code => .error code

/-- `ResourceClass` from `type_class.rs` (wire codes 1..=4). -/
inductive ResourceClass : Type
  | IN | CS | CH | HS
  deriving DecidableEq, Repr

/-- The wire code of a `ResourceClass` (`class as u16`). -/
def ResourceClass.toU16 : ResourceClass → Nat
  | .IN => 1 | .CS => 2 | .CH => 3 | .HS => 4

/-- `TryFrom<u16> for ResourceClass` from `type_class.rs`; the error
carries the unregistered code (`UnregisteredClass`). -/
def ResourceClass.tryFromU16 (value : Nat) : Except Nat ResourceClass :=
  match value with
  | 1 => .ok .IN | 2 => .ok .CS | 3 => .ok .CH | 4 => .ok .HS
  | code => .error code

/-- `QuestionClass` from `type_class.rs` (1..=4 plus wildcard 255). -/
inductive QuestionClass : Type
  | IN | CS | CH | HS | Any
  deriving DecidableEq, Repr

/-- The wire code of a `QuestionClass` (`class as u16`). -/
def QuestionClass.toU16 : QuestionClass → Nat
  | .IN => 1 | .CS => 2 | .CH => 3 | .HS => 4 | .Any => 255

/-- `TryFrom<u16> for QuestionClass` from `type_class.rs`. -/
def QuestionClass.tryFromU16 (value : Nat) : Except Nat QuestionClass :=
  match value with
  | 1 => .ok .IN | 2 => .ok .CS | 3 => .ok .CH | 4 => .ok .HS
  | 255 => .ok .Any
  | code => .error code

/-! ## `src/src/message/resource/mod.rs` -/

/-- `bytes::Buf::get_u16` on a byte slice: two big-endian bytes and the
rest, or `none` when fewer than 2 bytes remain (a Rust panic). -/
def getU16 : List Nat → Option (Nat × List Nat)
  | a :: b :: r => some (a * 256 + b, r)
  | _ => none

/-- `bytes::Buf::get_u32` on a byte slice: four big-endian bytes and the
rest, or `none` when fewer than 4 bytes remain (a Rust panic). -/
def getU32 : List Nat → Option (Nat × List Nat)
  | a :: b :: c :: d :: r => some (a * 16777216 + b * 65536 + c * 256 + d, r)
  | _ => none

/-- `ResourceData` from `resource/mod.rs`.  `Ipv4Addr` is its `u32` value;
the WKS bitmap is `()` in the source and is dropped here. -/
inductive ResourceData : Type
  | address (ip : Nat)
  | nameServer (l : Label)
  | mailDevice (l : Label)
  | mailForward (l : Label)
  | canonicalName (l : Label)
  | soa (name mail : Label) (serial refresh retry expire minimum : Nat)
  | mailBox (l : Label)
  | mailGroup (l : Label)
  | mailRename (l : Label)
  | null (bytes : List Nat)
  | wks (address : Nat) (protocol : Nat)
  | ptr (l : Label)
  | hostInfo (cpu os : CharacterString)
  | mailInfo (mailbox errorMailbox : Label)
  | mailExchange (preference : Nat) (exchange : Label)
  | text (strings : List CharacterString)
  deriving DecidableEq, Repr

/-- `ResourceData::typ` from `resource/mod.rs`: the wire type derived from
the active variant. -/
def ResourceData.typ : ResourceData → ResourceType
  | .address _ => .A
  | .nameServer _ => .NS
  | .mailDevice _ => .MD
  | .mailForward _ => .MF
  | .canonicalName _ => .CNAME
  | .soa _ _ _ _ _ _ _ => .SOA
  | .mailBox _ => .MB
  | .mailGroup _ => .MG
  | .mailRename _ => .MR
  | .null _ => .NULL
  | .wks _ _ => .WKS
  | .ptr _ => .PTR
  | .hostInfo _ _ => .HINFO
  | .mailInfo _ _ => .MINFO
  | .mailExchange _ _ => .MX
  | .text _ => .TXT

/-- `From<ResourceData> for Vec<u8>` from `resource/mod.rs`; the WKS arm
is `todo!` (a panic), modelled as `none`. -/
def encodeResourceData : ResourceData → Option (List Nat)
  | .hostInfo cpu os => some (encodeCharacterString cpu ++ encodeCharacterString os)
  | .canonicalName l | .mailDevice l | .mailRename l | .mailForward l
  | .mailBox l | .mailGroup l | .nameServer l | .ptr l => some (encodeLabel l)
  | .mailInfo mailbox errorMailbox =>
      some (encodeLabel mailbox ++ encodeLabel errorMailbox)
  | .mailExchange preference exchange =>
      some (putU16 preference ++ encodeLabel exchange)
  | .null bytes => some bytes
  | .soa name mail serial refresh retry expire minimum =>
      some (encodeLabel name ++ encodeLabel mail ++ putU32 serial ++
        putU32 refresh ++ putU32 retry ++ putU32 expire ++ putU32 minimum)
  | .text strings => some (strings.flatMap encodeCharacterString)
  | .address ip => some (putU32 ip)
  | .wks _ _ => none

/-- `ResourceDataError` from `resource/mod.rs`. -/
inductive ResourceDataError : Type
  | label (e : LabelError)
  deriving DecidableEq, Repr

/-- `ResourceData::parse_host_info` from `resource/mod.rs`. -/
def parse_host_info (value : List Nat) : PRes ResourceDataError ResourceData :=
  match parse_character_string value with
  | .error e => .err (.label e)
  | .ok (cpu, offset) =>
    match parse_character_string (value.drop offset) with
    | .error e => .err (.label e)
    | .ok (os, _) => .ok (.hostInfo cpu os)

/-- `ResourceData::parse_mail_exchange` from `resource/mod.rs`: the first
two bytes are the preference (`value[..2]` panics when shorter), the rest
is the exchange name. -/
def parse_mail_exchange (value : List Nat) : PRes ResourceDataError ResourceData :=
  match value with
  | a :: b :: _ =>
    match parse_label (value.drop 2) with
    | .panic => .panic
    | .err e => .err (.label e)
    | .ok (exchange, _) => .ok (.mailExchange (a * 256 + b) exchange)
  | _ => .panic

/-- `ResourceData::parse_address` from `resource/mod.rs`: the first four
bytes (`value[..4]` panics when shorter). -/
def parse_address (value : List Nat) : PRes ResourceDataError ResourceData :=
  match value with
  | a :: b :: c :: d :: _ => .ok (.address (a * 16777216 + b * 65536 + c * 256 + d))
  | _ => .panic

/-- `ResourceData::parse_mail_info` from `resource/mod.rs`. -/
def parse_mail_info (value : List Nat) : PRes ResourceDataError ResourceData :=
  match parse_label value with
  | .panic => .panic
  | .err e => .err (.label e)
  | .ok (mailbox, offset) =>
    match parse_label (value.drop offset) with
    | .panic => .panic
    | .err e => .err (.label e)
    | .ok (errorMailbox, _) => .ok (.mailInfo mailbox errorMailbox)

/-- The loop of `ResourceData::parse_text` from `resource/mod.rs`: while
`buf` is nonempty it parses a character string from `value` — the whole
RDATA slice, not the advanced cursor `buf` — pushes it, and advances `buf`
by that string's size (`&buf[offset..]` panics when `offset` exceeds what
is left). -/
def parseTextLoop (value : List Nat) :
    Nat → List Nat → PRes ResourceDataError (List CharacterString)
  | _, [] => .ok []
  | 0, _ :: _ => .ok []
  | fuel + 1, b0 :: rest =>
    match parse_character_string value with
    | .error e => .err (.label e)
    | .ok (s, offset) =>
      if (b0 :: rest).length < offset then .panic
      else
        match parseTextLoop value fuel ((b0 :: rest).drop offset) with
        | .ok strings => .ok (s :: strings)
        | .err e => .err e
        | .panic => .panic

/-- `ResourceData::parse_text` from `resource/mod.rs`.  The loop counter
is seeded with the RDATA length; every iteration drops at least one byte
(`parse_character_string_consumed_pos`), so the counter-exhausted arm is
unreachable. -/
def parse_text (value : List Nat) : PRes ResourceDataError ResourceData :=
  match parseTextLoop value value.length value with
  | .ok strings => .ok (.text strings)
  | .err e => .err e
  | .panic => .panic

/-- `ResourceData::parse_soa` from `resource/mod.rs`.  After parsing the
second name the source resets the cursor with `buf = &value[offset..]`
using the second name's own consumed count — not the sum — so the five
32-bit fields are read from the wrong position whenever the first name is
nonempty. -/
def parse_soa (value : List Nat) : PRes ResourceDataError ResourceData :=
  match parse_label value with
  | .panic => .panic
  | .err e => .err (.label e)
  | .ok (name, offset1) =>
    match parse_label (value.drop offset1) with
    | .panic => .panic
    | .err e => .err (.label e)
    | .ok (mail, offset2) =>
      let buf := value.drop offset2
      match getU32 buf with
      | none => .panic
      | some (serial, buf) =>
        match getU32 buf with
        | none => .panic
        | some (refresh, buf) =>
          match getU32 buf with
          | none => .panic
          | some (retry, buf) =>
            match getU32 buf with
            | none => .panic
            | some (expire, buf) =>
              match getU32 buf with
              | none => .panic
              | some (minimum, _) =>
                .ok (.soa name mail serial refresh retry expire minimum)

/-- `wrap_label` from `resource/mod.rs`: parse a whole name from the RDATA
slice and wrap it in the given variant. -/
def wrap_label (value : List Nat) (data : Label → ResourceData) :
    PRes ResourceDataError ResourceData :=
  match parse_label value with
  | .panic => .panic
  | .err e => .err (.label e)
  | .ok (l, _) => .ok (data l)

/-- The RDATA dispatch of `parse_resource_record` from `resource/mod.rs`;
the WKS arm is `todo!` (a panic). -/
def parseResourceData (typ : ResourceType) (buf : List Nat) :
    PRes ResourceDataError ResourceData :=
  match typ with
  | .A => parse_address buf
  | .NS => wrap_label buf .nameServer
  | .MD => wrap_label buf .mailDevice
  | .MF => wrap_label buf .mailForward
  | .CNAME => wrap_label buf .canonicalName
  | .SOA => parse_soa buf
  | .MB => wrap_label buf .mailBox
  | .MG => wrap_label buf .mailGroup
  | .MR => wrap_label buf .mailRename
  | .NULL => .ok (.null buf)
  | .WKS => .panic
  | .PTR => wrap_label buf .ptr
  | .HINFO => parse_host_info buf
  | .MINFO => parse_mail_info buf
  | .MX => parse_mail_exchange buf
  | .TXT => parse_text buf

/-- `ResourceRecord` from `resource/mod.rs`. -/
structure ResourceRecord : Type where
  name : Label
  rclass : ResourceClass
  timeToLive : Nat
  data : ResourceData
  deriving DecidableEq, Repr

/-- `ResourceRecordError` from `resource/mod.rs` (`Type`/`Class` carry the
unregistered wire codes). -/
inductive ResourceRecordError : Type
  | label (e : LabelError)
  | data (e : ResourceDataError)
  | typ (code : Nat)
  | cls (code : Nat)
  deriving DecidableEq, Repr

/-- `parse_resource_record` from `resource/mod.rs`: name, 2-byte type,
2-byte class, 4-byte TTL, 2-byte RDATA length, then
`assert!(length <= buf.remaining())` — a panic, not an error, when the
RDATA length exceeds the rest of the buffer — and the type dispatch on the
RDATA slice.  Returns the record and
`name_offset + 2 + 2 + 4 + 2 + length`. -/
def parse_resource_record (value : List Nat) :
    PRes ResourceRecordError (ResourceRecord × Nat) :=
  match parse_label value with
  | .panic => .panic
  | .err e => .err (.label e)
  | .ok (name, offset) =>
    let buf := value.drop offset
    match getU16 buf with
    | none => .panic
    | some (typCode, buf) =>
      match ResourceType.tryFromU16 typCode with
      | .error code => .err (.typ code)
      | .ok typ =>
        match getU16 buf with
        | none => .panic
        | some (classCode, buf) =>
          match ResourceClass.tryFromU16 classCode with
          | .error code => .err (.cls code)
          | .ok rclass =>
            match getU32 buf with
            | none => .panic
            | some (timeToLive, buf) =>
              match getU16 buf with
              | none => .panic
              | some (length, buf) =>
                if buf.length < length then .panic
                else
                  match parseResourceData typ (buf.take length) with
                  | .panic => .panic
                  | .err e => .err (.data e)
                  | .ok data =>
                    .ok (⟨name, rclass, timeToLive, data⟩,
                      offset + 2 + 2 + 4 + 2 + length)

/-- `From<ResourceRecord> for Vec<u8>` from `resource/mod.rs`: name, type
code, class code, TTL, computed RDATA length, RDATA (`none` when the RDATA
encoding panics on WKS). -/
def encodeResourceRecord (rr : ResourceRecord) : Option (List Nat) :=
  match encodeResourceData rr.data with
  | none => none
  | some d =>
    some (encodeLabel rr.name ++ putU16 rr.data.typ.toU16 ++
      putU16 rr.rclass.toU16 ++ putU32 rr.timeToLive ++ putU16 d.length ++ d)

/-! ## The question codec

`src/src/message/mod.rs` calls `parse_question(buf) -> (Question, usize)`
on a question whose `name` is a `Label`, but the only question module in
`src/` (`question.rs`) is a superseded snapshot with `name: Vec<String>`
and no `parse_question`; the live question codec is missing from `src/`.
It is modelled from the spec here (§4.3). -/

/-- Modelled from the spec: the question parse errors of §4.3
(`MissingTypeAndClass`/`MissingClass` when fewer than 4 bytes follow the
name — 0 or 1 missing both, 2 or 3 missing the class, as in the superseded
`question.rs` — `InvalidType`/`InvalidClass` for unregistered codes) plus
the name-decode errors, which `mod.rs` surfaces through
`MessageParseError::Question`. -/
inductive QuestionParseError : Type
  | label (e : LabelError)
  | invalidType (code : Nat)
  | invalidClass (code : Nat)
  | missingTypeAndClass
  | missingClass
  deriving DecidableEq, Repr

/-- The live `Question` used by `mod.rs`: a `Label` name, question type
and question class (the snapshot in `question.rs` stores `Vec<String>`
names and is superseded). -/
structure Question : Type where
  name : Label
  typ : QuestionType
  qclass : QuestionClass
  deriving DecidableEq, Repr

/-- Modelled from the spec: `parse_question` (§4.3) — decode a `Name` with
the name codec, then require at least 4 remaining bytes for a 16-bit type
and 16-bit class; type and class codes not in the registries fail.
Returns the question and the name's count plus 4. -/
def parse_question (value : List Nat) : PRes QuestionParseError (Question × Nat) :=
  match parse_label value with
  | .panic => .panic
  | .err e => .err (.label e)
  | .ok (name, offset) =>
    let rest := value.drop offset
    if rest.length ≤ 1 then .err .missingTypeAndClass
    else if rest.length ≤ 3 then .err .missingClass
    else
      match QuestionType.tryFromU16 (rest.getD 0 0 * 256 + rest.getD 1 0) with
      | .error code => .err (.invalidType code)
      | .ok typ =>
        match QuestionClass.tryFromU16 (rest.getD 2 0 * 256 + rest.getD 3 0) with
        | .error code => .err (.invalidClass code)
        | .ok qclass => .ok (⟨name, typ, qclass⟩, offset + 4)

/-- Modelled from the spec: question encoding (§4.3, "encode is the direct
inverse"): name bytes, then the 16-bit type and class codes. -/
def encodeQuestion (q : Question) : List Nat :=
  encodeLabel q.name ++ putU16 q.typ.toU16 ++ putU16 q.qclass.toU16

/-! ## `src/src/message/mod.rs` -/

/-- `Message` from `mod.rs`. -/
structure Message : Type where
  header : Header
  questions : List Question
  answers : List ResourceRecord
  authorities : List ResourceRecord
  additionals : List ResourceRecord
  deriving DecidableEq, Repr

/-- `MessageParseError` from `mod.rs`. -/
inductive MessageParseError : Type
  | shortBuffer
  | header (e : HeaderParseError)
  | resource (e : ResourceRecordError)
  | question (e : QuestionParseError)
  deriving DecidableEq, Repr

/-- Outcome of a message-decode step: a value, a returned error, a panic,
or divergence (the expansion fuel ran out, marking the unbounded recursion
of `expand_label`). -/
inductive Res (α : Type) : Type
  | ok (a : α)
  | err (e : MessageParseError)
  | panic
  | diverge
  deriving DecidableEq, Repr

/-- `expand_label` from `mod.rs`, driven by fuel.  The source's body is
written against the missing newer `Label` snapshot (it pops the last
element of `label.0` and matches `CharacterString::Compressed`); with the
`Label` enum of `label.rs` — where a pointer is the whole label — a
trailing pointer is the `compressed` case: re-parse at the absolute offset
(`&buf[offset..]` panics past the end) and repeat while the result is
still compressed, a literal sequence is returned unchanged, and a parse
failure hits `.expect("false compressed offset")`, a panic.  The source
recursion has no cycle guard, so fuel exhaustion (`diverge`) marks
non-termination. -/
def expandLabelF : Nat → Label → List Nat → Res Label
  | 0, _, _ => .diverge
  | _ + 1, .sequence seq, _ => .ok (.sequence seq)
  | fuel + 1, .compressed offset, buf =>
    if buf.length < offset then .panic
    else
      match parse_label (buf.drop offset) with
      | .panic => .panic
      | .err _ => .panic
      | .ok (l, _) => expandLabelF fuel l buf

/-- The question loop of `TryFrom<&[u8]> for Message` in `mod.rs`: decode
`count` questions, expanding each name against the whole original buffer
`value`, and advance the cursor by each question's count. -/
def parseQuestions (fuel : Nat) :
    Nat → List Nat → List Nat → Res (List Question × List Nat)
  | 0, buf, _ => .ok ([], buf)
  | k + 1, buf, value =>
    match parse_question buf with
    | .panic => .panic
    | .err e => .err (.question e)
    | .ok (q, offset) =>
      match expandLabelF fuel q.name value with
      | .diverge => .diverge
      | .panic => .panic
      | .err e => .err e
      | .ok name =>
        match parseQuestions fuel k (buf.drop offset) value with
        | .ok (qs, rest) => .ok ({ q with name := name } :: qs, rest)
        | .err e => .err e
        | .panic => .panic
        | .diverge => .diverge

/-- The record loops of `TryFrom<&[u8]> for Message` in `mod.rs` (answers,
authorities and additionals all use this shape): decode `count` resource
records, expanding each record's owner name against the whole original
buffer. -/
def parseRecords (fuel : Nat) :
    Nat → List Nat → List Nat → Res (List ResourceRecord × List Nat)
  | 0, buf, _ => .ok ([], buf)
  | k + 1, buf, value =>
    match parse_resource_record buf with
    | .panic => .panic
    | .err e => .err (.resource e)
    | .ok (rr, offset) =>
      match expandLabelF fuel rr.name value with
      | .diverge => .diverge
      | .panic => .panic
      | .err e => .err e
      | .ok name =>
        match parseRecords fuel k (buf.drop offset) value with
        | .ok (rrs, rest) => .ok ({ rr with name := name } :: rrs, rest)
        | .err e => .err e
        | .panic => .panic
        | .diverge => .diverge

/-- `TryFrom<&[u8]> for Message` from `mod.rs`: fewer than 12 bytes is
`ShortBuffer`; the header is decoded from `value[..12]`; then
`question_count` questions and `answer_count`, `authority_count`,
`addtional_count` records are decoded in that order, each name expanded
against the entire original buffer. -/
def decodeMessage (fuel : Nat) (value : List Nat) : Res Message :=
  if value.length < 12 then .err .shortBuffer
  else
    match headerTryFrom12 (value.take 12) with
    | .error e => .err (.header e)
    | .ok header =>
      match parseQuestions fuel header.questionCount (value.drop 12) value with
      | .err e => .err e
      | .panic => .panic
      | .diverge => .diverge
      | .ok (questions, buf) =>
        match parseRecords fuel header.answerCount buf value with
        | .err e => .err e
        | .panic => .panic
        | .diverge => .diverge
        | .ok (answers, buf) =>
          match parseRecords fuel header.authorityCount buf value with
          | .err e => .err e
          | .panic => .panic
          | .diverge => .diverge
          | .ok (authorities, buf) =>
            match parseRecords fuel header.addtionalCount buf value with
            | .err e => .err e
            | .panic => .panic
            | .diverge => .diverge
            | .ok (additionals, _) =>
              .ok ⟨header, questions, answers, authorities, additionals⟩

/-- `From<Message> for Vec<u8>` from `mod.rs`: header bytes, then each
question, answer, authority and additional in order (`none` when a record
encoding panics on WKS). -/
def encodeMessage (m : Message) : Option (List Nat) :=
  match m.answers.mapM encodeResourceRecord,
      m.authorities.mapM encodeResourceRecord,
      m.additionals.mapM encodeResourceRecord with
  | some ans, some aut, some add =>
    some (headerToBytes m.header ++ m.questions.flatMap encodeQuestion ++
      ans.flatten ++ aut.flatten ++ add.flatten)
  | _, _, _ => none

/-- `Message::new` from `mod.rs`: a builder-default header with the given
id and empty sections. -/
def Message.new (id : Nat) : Message := ⟨Header.build id, [], [], [], []⟩

/-- `Message::ask` from `mod.rs`.  The source increments
`header.question_count` FIRST and only then parses the domain name with
`Label::parse_str`; when the parse fails the incremented count stays while
no question is pushed.  Returns the mutated message and the error, if
any. -/
def Message.ask (m : Message) (name : List Nat) (typ : QuestionType)
    (qclass : QuestionClass) : Message × Option LabelError :=
  let m1 := { m with header := { m.header with questionCount := m.header.questionCount + 1 } }
  match Label.parse name with
  | .error e => (m1, some e)
  | .ok l => ({ m1 with questions := m1.questions ++ [⟨l, typ, qclass⟩] }, none)

/-- `Message::answer` from `mod.rs`: increment `answer_count`, push the
record. -/
def Message.answer (m : Message) (rr : ResourceRecord) : Message :=
  { m with
    header := { m.header with answerCount := m.header.answerCount + 1 },
    answers := m.answers ++ [rr] }

/-- `Message::authorize` from `mod.rs`: increment `authority_count`, push
the record. -/
def Message.authorize (m : Message) (rr : ResourceRecord) : Message :=
  { m with
    header := { m.header with authorityCount := m.header.authorityCount + 1 },
    authorities := m.authorities ++ [rr] }

/-- `Message::add` from `mod.rs`: increment `addtional_count`, push the
record. -/
def Message.add (m : Message) (rr : ResourceRecord) : Message :=
  { m with
    header := { m.header with addtionalCount := m.header.addtionalCount + 1 },
    additionals := m.additionals ++ [rr] }

/-! ## Claim theorems -/

/-- C3: the claim says a buffer starting with a `11`-tagged byte decodes to
a compression pointer with the 14-bit offset AND reports exactly 2 bytes
consumed.  The offset is right, but the source returns `buf.remaining()` —
the bytes left after the 2-byte pointer — as the count: on the 2-byte
buffer `[192, 12]` it reports 0, and on the 5-byte buffer
`[192, 12, 7, 7, 7]` it reports 3, never 2. -/
theorem c3_pointer_consumed_mismatch :
    parse_label [192, 12] = .ok (.compressed 12, 0) ∧
    parse_label [192, 12, 7, 7, 7] = .ok (.compressed 12, 3) := by
  constructor <;> rfl

/-- C5: `Message::ask` increments `question_count` before parsing the
name, so a failing parse (here `"a..b"`, whose middle segment is empty)
leaves the count at 1 while the question list stays empty — the count and
the list are NOT left unchanged together, refuting the claimed
invariant. -/
theorem c5_ask_failure_count_mismatch :
    ((Message.new 1).ask [97, 46, 46, 98] .A .IN).2 = some .incompleteBuffer ∧
    ((Message.new 1).ask [97, 46, 46, 98] .A .IN).1.header.questionCount = 1 ∧
    ((Message.new 1).ask [97, 46, 46, 98] .A .IN).1.questions = [] := by
  refine ⟨rfl, rfl, rfl⟩

/-- C6: message decode is NOT panic-free: on a message whose single answer
record declares RDLENGTH 10 with 0 bytes left, the source hits
`assert!(length <= buf.remaining())` and panics instead of returning an
error, whatever the expansion fuel. -/
theorem c6_rdlength_overflow_panics (fuel : Nat) :
    decodeMessage fuel
      [0, 0, 128, 0, 0, 0, 0, 1, 0, 0, 0, 0, 0, 0, 1, 0, 1, 0, 0, 0, 0, 0, 10] =
      .panic := by
  rfl

/-- C7: name expansion does NOT terminate on every input: on a buffer
whose byte 12 is a pointer to absolute offset 12 (a self-referential
pointer), expanding the pointer label re-parses the same pointer forever —
no amount of fuel reaches a result, modelling the unbounded recursion of
`expand_label`. -/
theorem c7_expand_cycle_diverges (fuel : Nat) :
    expandLabelF fuel (.compressed 12) (List.replicate 12 0 ++ [192, 12]) =
      .diverge := by
  induction fuel with
  | zero => rfl
  | succ n ih =>
    have hstep :
        expandLabelF (n + 1) (.compressed 12) (List.replicate 12 0 ++ [192, 12]) =
          expandLabelF n (.compressed 12) (List.replicate 12 0 ++ [192, 12]) := by
      rfl
    rw [hstep, ih]

/-- C8 counterexample: decoding the WKS-typed record
`[0, 0,11, 0,1, 0,0,0,0, 0,0]` (root name, type 11, class IN, TTL 0,
RDLENGTH 0) hits `todo!("implement wks parser")` — a panic, not a returned
not-implemented error value — and encoding a WKS payload hits
`todo!("implement the WKS serialization")`, also a panic. -/
theorem c8_wks_panics_concrete :
    parse_resource_record [0, 0, 11, 0, 1, 0, 0, 0, 0, 0, 0] = .panic ∧
    encodeResourceData (.wks 134744072 6) = none := by
  constructor <;> rfl

/-- C8 amended: WKS is unimplemented, but both directions fail by
panicking (`todo!`), not by returning a distinct not-implemented error
value: the RDATA dispatch on type WKS panics for every RDATA slice, and
encoding any record whose RDATA is the WKS variant panics for every
address and protocol. -/
theorem c8_wks_amended (addr protocol : Nat) (buf : List Nat) :
    parseResourceData .WKS buf = .panic ∧
    encodeResourceRecord ⟨.sequence [], .IN, 0, .wks addr protocol⟩ = none := by
  exact ⟨rfl, rfl⟩

/-- C2 counterexample: a 12-byte header whose opcode field holds the
reserved value 3 (third byte `25 = 0b00011001`, opcode nibble 3, RD set)
decodes successfully to `Reserved(3)` — the source logs and coerces
instead of failing with `ReservedOperationCode` (this input is the
repository's own `parse_header_section_stage` test vector, which expects
exactly this success). -/
theorem c2_reserved_opcode_is_coerced :
    headerTryFromSlice [189, 13, 25, 0, 0, 1, 0, 0, 0, 0, 0, 0] =
      .ok ⟨48397, .query, .reserved 3, false, false, true, false, .ok (),
        1, 0, 0, 0⟩ := by
  rfl

theorem rcodeOfNibble_reserved {c : Nat} (h : 6 ≤ c) :
    rcodeOfNibble c = .error (.reservedResponseCode c) := by
  unfold rcodeOfNibble
  repeat' split
  all_goals first | rfl | omega

theorem opcodeOfNibble_reserved {c : Nat} (h : 3 ≤ c) :
    opcodeOfNibble c = .reserved c := by
  unfold opcodeOfNibble
  repeat' split
  all_goals first | rfl | omega

/-- C2 amended: on a 12-byte input the decoder enforces only HALF of the
claimed policy: a response-code nibble in 6..=15 is a hard
`ReservedResponseCode` error, but an opcode nibble in 3..=15 (with a
non-reserved response code) decodes SUCCESSFULLY to the catch-all
`OperationCode::Reserved(code)` — reserved opcodes are coerced, never
rejected.  The nibbles are `b[3] % 16` (response code) and
`b[2] / 8 % 16` (opcode). -/
theorem c2_reserved_codes_policy (b : List Nat) (h12 : b.length = 12)
    (hb3 : b.getD 3 0 < 256) :
    (6 ≤ b.getD 3 0 % 16 →
      headerTryFromSlice b = .error (.reservedResponseCode (b.getD 3 0 % 16))) ∧
    (3 ≤ b.getD 2 0 / 8 % 16 → b.getD 3 0 % 16 ≤ 5 →
      ∃ h, headerTryFromSlice b = .ok h ∧
        h.operationCode = .reserved (b.getD 2 0 / 8 % 16)) := by
  have hfr : (b.getD 2 0 * 256 + b.getD 3 0) % 16 = b.getD 3 0 % 16 := by omega
  have hfo : (b.getD 2 0 * 256 + b.getD 3 0) / 2048 % 16 = b.getD 2 0 / 8 % 16 := by
    omega
  constructor
  · intro h6
    simp only [headerTryFromSlice, h12, if_pos, headerTryFrom12]
    rw [hfr, rcodeOfNibble_reserved h6]
  · intro h3 h5
    simp only [headerTryFromSlice, h12, if_pos, headerTryFrom12]
    rw [hfr, hfo, opcodeOfNibble_reserved h3]
    have hr5 : b.getD 3 0 % 16 = 0 ∨ b.getD 3 0 % 16 = 1 ∨ b.getD 3 0 % 16 = 2 ∨
        b.getD 3 0 % 16 = 3 ∨ b.getD 3 0 % 16 = 4 ∨ b.getD 3 0 % 16 = 5 := by omega
    rcases hr5 with h | h | h | h | h | h <;>
      rw [h] <;>
      exact ⟨_, rfl, rfl⟩

/-- C2 witness: the amended theorem applied at the concrete inputs
`[0,0,0,6,…]` (response-code nibble 6 → hard error) and `[0,0,24,0,…]`
(opcode nibble 3, response code 0 → success with `Reserved(3)`). -/
theorem c2_reserved_codes_policy_witness :
    headerTryFromSlice [0, 0, 0, 6, 0, 0, 0, 0, 0, 0, 0, 0] =
      .error (.reservedResponseCode 6) ∧
    ∃ h, headerTryFromSlice [0, 0, 24, 0, 0, 0, 0, 0, 0, 0, 0, 0] = .ok h ∧
      h.operationCode = .reserved 3 := by
  constructor
  · exact (c2_reserved_codes_policy [0, 0, 0, 6, 0, 0, 0, 0, 0, 0, 0, 0]
      rfl (by decide)).1 (by decide)
  · exact (c2_reserved_codes_policy [0, 0, 24, 0, 0, 0, 0, 0, 0, 0, 0, 0]
      rfl (by decide)).2 (by decide) (by decide)

set_option maxRecDepth 2000 in
/-- C4 counterexample: the encoding of a literal label with 255 bytes of
content starts with the length byte 255 = `0b11111111`, whose top two bits
are `11` — so decode does NOT round-trip it: `parse_label` takes the
compression-pointer branch and returns `Compressed(0x3F61)` (bytes 255 and
97 xor `0xC000`), not the original 255-byte sequence. -/
theorem c4_label255_decodes_as_pointer :
    encodeLabel (.sequence [⟨List.replicate 255 97⟩]) =
      255 :: List.replicate 255 97 ++ [0] ∧
    parse_label (255 :: List.replicate 255 97 ++ [0]) =
      .ok (.compressed 16225, 255) ∧
    Label.compressed 16225 ≠ Label.sequence [⟨List.replicate 255 97⟩] := by
  refine ⟨by decide, by decide, by decide⟩

/-- Round-trip of a single literal label through `parse_label` for content
lengths whose length byte does not collide with the `11` pointer tag. -/
theorem parse_label_single_literal (c : Nat) (cs : List Nat)
    (h191 : cs.length + 1 ≤ 191) :
    parse_label ((cs.length + 1) :: c :: (cs ++ [0])) =
      .ok (.sequence [⟨c :: cs⟩], cs.length + 3) := by
  have htake : (c :: (cs ++ [0])).take (cs.length + 1) = c :: cs := by
    simp only [List.take_succ_cons]
    rw [List.take_left' rfl]
  have hpcs : parse_character_string ((cs.length + 1) :: c :: (cs ++ [0])) =
      .ok (⟨c :: cs⟩, cs.length + 2) := by
    have h := parse_character_string_cons (n := cs.length + 1) (l := c :: (cs ++ [0]))
      (by simp; omega) (by simp)
    rw [htake] at h
    exact h
  have hdrop : (((cs.length + 1) :: c :: (cs ++ [0])).drop (cs.length + 2)) = [0] := by
    simp only [List.drop_succ_cons]
    exact List.drop_left' rfl
  have hloop : ∀ f, parseLabelLoop (f + 1) ((cs.length + 1) :: c :: (cs ++ [0])) =
      (match parseLabelLoop f [0] with
        | .error e => .error e
        | .ok (ss, off) => .ok (⟨c :: cs⟩ :: ss, cs.length + 2 + off)) := by
    intro f
    simp only [parseLabelLoop]
    rw [if_neg (by omega)]
    rw [hpcs]
    simp only
    rw [hdrop]
    rw [if_neg (by simp)]
  have hfin : parseLabelLoop (cs.length + 1 + 1 + 1)
      ((cs.length + 1) :: c :: (cs ++ [0])) = .ok ([⟨c :: cs⟩], cs.length + 2) := by
    rw [show cs.length + 1 + 1 + 1 = (cs.length + 1 + 1) + 1 from rfl, hloop]
    simp only [parseLabelLoop]
    simp
  simp only [parse_label]
  rw [if_neg (by omega)]
  simp only [List.length_cons, List.length_append, List.length_nil, Nat.zero_add]
  rw [hfin]

set_option maxRecDepth 2000 in
/-- C4 amended: a literal label round-trips only up to content length 191:
for `1 ≤ len ≤ 191` the wire form `len :: content ++ [0]` decodes back to
the same single-string sequence (and encodes back to the same bytes),
while 255-byte labels are misread as compression pointers (see the
counterexample) — and a 256-byte segment is indeed rejected at
construction with `MaxSizeReached(256)`. -/
theorem c4_label_bounds_amended (content : List Nat)
    (h1 : 1 ≤ content.length) (h191 : content.length ≤ 191) :
    parse_label (content.length :: content ++ [0]) =
      .ok (.sequence [⟨content⟩], content.length + 2) ∧
    encodeLabel (.sequence [⟨content⟩]) = content.length :: content ++ [0] ∧
    Label.parse (List.replicate 256 97) = .error (.maxSizeReached 256) := by
  refine ⟨?_, ?_, by decide⟩
  · match content, h1 with
    | c :: cs, _ =>
      simp only [List.length_cons, List.cons_append]
      exact parse_label_single_literal c cs (by simpa using h191)
  · simp only [encodeLabel, List.flatMap_cons, List.flatMap_nil, List.append_nil,
      encodeCharacterString]
    rw [Nat.mod_eq_of_lt (by omega)]

set_option maxRecDepth 2000 in
/-- C4 witness: the amended round-trip applied at the concrete 191-byte
label whose bytes are all 97. -/
theorem c4_label_bounds_amended_witness :
    parse_label (191 :: List.replicate 191 97 ++ [0]) =
      .ok (.sequence [⟨List.replicate 191 97⟩], 193) ∧
    encodeLabel (.sequence [⟨List.replicate 191 97⟩]) =
      191 :: List.replicate 191 97 ++ [0] ∧
    Label.parse (List.replicate 256 97) = .error (.maxSizeReached 256) := by
  have h := c4_label_bounds_amended (List.replicate 191 97) (by decide) (by decide)
  simpa using h

theorem headerToBytes_length (h : Header) : (headerToBytes h).length = 12 := by
  simp [headerToBytes, putU16]

theorem headerTryFromSlice_of_12 {b : List Nat} (h : b.length = 12) :
    headerTryFromSlice b = headerTryFrom12 b := by
  simp [headerTryFromSlice, h]

/-- Decoding six big-endian 16-bit words: the id and the counts come back
unchanged, and the flag word comes back reduced mod `2^16`. -/
theorem headerTryFrom12_of_putU16 (id flags qc ac nc arc : Nat)
    (hid : id < 65536) (hqc : qc < 65536) (hac : ac < 65536)
    (hnc : nc < 65536) (harc : arc < 65536) :
    headerTryFrom12 (putU16 id ++ putU16 flags ++ putU16 qc ++ putU16 ac ++
        putU16 nc ++ putU16 arc) =
      match rcodeOfNibble (flags % 65536 % 16) with
      | .error e => .error e
      | .ok response => .ok ⟨id,
          (if flags % 65536 / 32768 % 2 ≠ 0 then .response else .query),
          opcodeOfNibble (flags % 65536 / 2048 % 16),
          decide (flags % 65536 / 1024 % 2 ≠ 0), decide (flags % 65536 / 512 % 2 ≠ 0),
          decide (flags % 65536 / 256 % 2 ≠ 0), decide (flags % 65536 / 128 % 2 ≠ 0),
          response, qc, ac, nc, arc⟩ := by
  simp only [headerTryFrom12, putU16, List.cons_append, List.nil_append,
    List.getD_cons_zero, List.getD_cons_succ]
  simp only [show id / 256 % 256 * 256 + id % 256 = id from by omega,
    show flags / 256 % 256 * 256 + flags % 256 = flags % 65536 from by omega,
    show qc / 256 % 256 * 256 + qc % 256 = qc from by omega,
    show ac / 256 % 256 * 256 + ac % 256 = ac from by omega,
    show nc / 256 % 256 * 256 + nc % 256 = nc from by omega,
    show arc / 256 % 256 * 256 + arc % 256 = arc from by omega]

/-- Field extraction from the packed flag word: the seven bit fields of
the encoder are recovered exactly by the decoder's `/`-`%` arithmetic. -/
theorem flagsExtract (qr opn aa tc rd ra rc : Nat) (hqr : qr < 2) (hop : opn < 3)
    (haa : aa < 2) (htc : tc < 2) (hrd : rd < 2) (hra : ra < 2) (hrc : rc < 6) :
    (qr <<< 15 ||| opn <<< 11 ||| aa <<< 10 ||| tc <<< 9 ||| rd <<< 8 |||
        ra <<< 7 ||| 0 ||| rc) % 65536 % 16 = rc ∧
    (qr <<< 15 ||| opn <<< 11 ||| aa <<< 10 ||| tc <<< 9 ||| rd <<< 8 |||
        ra <<< 7 ||| 0 ||| rc) % 65536 / 32768 % 2 = qr ∧
    (qr <<< 15 ||| opn <<< 11 ||| aa <<< 10 ||| tc <<< 9 ||| rd <<< 8 |||
        ra <<< 7 ||| 0 ||| rc) % 65536 / 2048 % 16 = opn ∧
    (qr <<< 15 ||| opn <<< 11 ||| aa <<< 10 ||| tc <<< 9 ||| rd <<< 8 |||
        ra <<< 7 ||| 0 ||| rc) % 65536 / 1024 % 2 = aa ∧
    (qr <<< 15 ||| opn <<< 11 ||| aa <<< 10 ||| tc <<< 9 ||| rd <<< 8 |||
        ra <<< 7 ||| 0 ||| rc) % 65536 / 512 % 2 = tc ∧
    (qr <<< 15 ||| opn <<< 11 ||| aa <<< 10 ||| tc <<< 9 ||| rd <<< 8 |||
        ra <<< 7 ||| 0 ||| rc) % 65536 / 256 % 2 = rd ∧
    (qr <<< 15 ||| opn <<< 11 ||| aa <<< 10 ||| tc <<< 9 ||| rd <<< 8 |||
        ra <<< 7 ||| 0 ||| rc) % 65536 / 128 % 2 = ra := by
  have core : ∀ (a : Fin 2) (b : Fin 3) (c d e f : Fin 2) (g : Fin 6),
      (a.val <<< 15 ||| b.val <<< 11 ||| c.val <<< 10 ||| d.val <<< 9 |||
          e.val <<< 8 ||| f.val <<< 7 ||| 0 ||| g.val) % 65536 % 16 = g.val ∧
      (a.val <<< 15 ||| b.val <<< 11 ||| c.val <<< 10 ||| d.val <<< 9 |||
          e.val <<< 8 ||| f.val <<< 7 ||| 0 ||| g.val) % 65536 / 32768 % 2 = a.val ∧
      (a.val <<< 15 ||| b.val <<< 11 ||| c.val <<< 10 ||| d.val <<< 9 |||
          e.val <<< 8 ||| f.val <<< 7 ||| 0 ||| g.val) % 65536 / 2048 % 16 = b.val ∧
      (a.val <<< 15 ||| b.val <<< 11 ||| c.val <<< 10 ||| d.val <<< 9 |||
          e.val <<< 8 ||| f.val <<< 7 ||| 0 ||| g.val) % 65536 / 1024 % 2 = c.val ∧
      (a.val <<< 15 ||| b.val <<< 11 ||| c.val <<< 10 ||| d.val <<< 9 |||
          e.val <<< 8 ||| f.val <<< 7 ||| 0 ||| g.val) % 65536 / 512 % 2 = d.val ∧
      (a.val <<< 15 ||| b.val <<< 11 ||| c.val <<< 10 ||| d.val <<< 9 |||
          e.val <<< 8 ||| f.val <<< 7 ||| 0 ||| g.val) % 65536 / 256 % 2 = e.val ∧
      (a.val <<< 15 ||| b.val <<< 11 ||| c.val <<< 10 ||| d.val <<< 9 |||
          e.val <<< 8 ||| f.val <<< 7 ||| 0 ||| g.val) % 65536 / 128 % 2 = f.val := by
    decide
  exact core ⟨qr, hqr⟩ ⟨opn, hop⟩ ⟨aa, haa⟩ ⟨tc, htc⟩ ⟨rd, hrd⟩ ⟨ra, hra⟩ ⟨rc, hrc⟩

theorem PacketType.toU16_lt (t : PacketType) : t.toU16 < 2 := by
  cases t <;> decide

theorem packetType_of_toU16 (t : PacketType) :
    (if t.toU16 ≠ 0 then PacketType.response else PacketType.query) = t := by
  cases t <;> rfl

theorem boolBit_lt (b : Bool) : boolBit b < 2 := by cases b <;> decide

theorem boolBit_decide (b : Bool) : decide (boolBit b ≠ 0) = b := by
  cases b <;> rfl

theorem responseToU16_lt (r : Except HeaderError Unit) : responseToU16 r < 6 := by
  cases r with
  | error e => cases e <;> decide
  | ok u => cases u; decide

theorem rcodeOfNibble_responseToU16 (r : Except HeaderError Unit) :
    rcodeOfNibble (responseToU16 r) = .ok r := by
  cases r with
  | error e => cases e <;> rfl
  | ok u => rfl

theorem opcodeOfNibble_of_valid (op : OperationCode)
    (hop : op = .standardQuery ∨ op = .inverseQuery ∨ op = .statusRequest) :
    opcodeOfNibble op.toU16 = op := by
  rcases hop with h | h | h <;> subst h <;> rfl

theorem operationCode_toU16_lt (op : OperationCode)
    (hop : op = .standardQuery ∨ op = .inverseQuery ∨ op = .statusRequest) :
    op.toU16 < 3 := by
  rcases hop with h | h | h <;> subst h <;> decide

/-- C9: header round-trip — for every header whose numeric fields fit in
16 bits, whose opcode is one of the three defined operation codes and
whose response status is `Ok` or one of the five defined error codes
(enforced by the `response` field's type), decoding the 12 encoded bytes
returns exactly the original header. -/
theorem c9_header_roundtrip (h : Header) (hid : h.id < 65536)
    (hqc : h.questionCount < 65536) (hac : h.answerCount < 65536)
    (hnc : h.authorityCount < 65536) (harc : h.addtionalCount < 65536)
    (hop : h.operationCode = .standardQuery ∨ h.operationCode = .inverseQuery ∨
      h.operationCode = .statusRequest) :
    headerTryFromSlice (headerToBytes h) = .ok h := by
  obtain ⟨id, typ, op, aa, tc, rd, ra, resp, qc, ac, nc, arc⟩ := h
  simp only at hid hqc hac hnc harc hop ⊢
  rw [headerTryFromSlice_of_12 (headerToBytes_length _)]
  simp only [headerToBytes]
  rw [headerTryFrom12_of_putU16 id _ qc ac nc arc hid hqc hac hnc harc]
  have hx := flagsExtract typ.toU16 op.toU16 (boolBit aa) (boolBit tc) (boolBit rd)
    (boolBit ra) (responseToU16 resp) (PacketType.toU16_lt typ)
    (operationCode_toU16_lt op hop) (boolBit_lt aa) (boolBit_lt tc) (boolBit_lt rd)
    (boolBit_lt ra) (responseToU16_lt resp)
  simp only [hx.1, hx.2.1, hx.2.2.1, hx.2.2.2.1, hx.2.2.2.2.1, hx.2.2.2.2.2.1,
    hx.2.2.2.2.2.2]
  rw [rcodeOfNibble_responseToU16 resp]
  simp only [packetType_of_toU16, boolBit_decide, opcodeOfNibble_of_valid op hop]

/-- C9 witness: the round-trip applied at a concrete header with id 1234,
an inverse query, AA and RD set, status `Name` and counts 1, 2, 3, 4. -/
theorem c9_header_roundtrip_witness :
    headerTryFromSlice (headerToBytes ⟨1234, .query, .inverseQuery, true, false,
      true, false, .error .name, 1, 2, 3, 4⟩) =
      .ok ⟨1234, .query, .inverseQuery, true, false, true, false,
        .error .name, 1, 2, 3, 4⟩ :=
  c9_header_roundtrip _ (by decide) (by decide) (by decide) (by decide)
    (by decide) (Or.inr (Or.inl rfl))

set_option maxRecDepth 4000 in
/-- C10 counterexample: appending trailing bytes is NOT always ignored.
The 29-byte message (header with one answer, an A record for name "a")
decodes fine, but appending 300 zero bytes makes the very same answer
record fail to decode: `parse_character_string` rejects any remaining
buffer longer than 255 bytes, so the name parse now returns
`MaxSizeReached(317)` and the whole decode errors instead of returning
the same message. -/
theorem c10_trailing_bytes_change_result :
    decodeMessage 9 ([0, 0, 128, 0, 0, 0, 0, 1, 0, 0, 0, 0] ++
      [1, 97, 0, 0, 1, 0, 1, 0, 0, 0, 60, 0, 4, 1, 2, 3, 4]) =
      .ok ⟨⟨0, .response, .standardQuery, false, false, false, false, .ok (),
        0, 1, 0, 0⟩, [],
        [⟨.sequence [⟨[97]⟩], .IN, 60, .address 16909060⟩], [], []⟩ ∧
    decodeMessage 9 (([0, 0, 128, 0, 0, 0, 0, 1, 0, 0, 0, 0] ++
      [1, 97, 0, 0, 1, 0, 1, 0, 0, 0, 60, 0, 4, 1, 2, 3, 4]) ++
        List.replicate 300 0) =
      .err (.resource (.label (.maxSizeReached 317))) := by
  constructor <;> rfl

/-- C10 amended: decode reads only the header plus the counted items and
never requires the buffer to be exhausted, but item parsing is sensitive
to the length of the remaining buffer, so appending bytes can change the
result when a count is non-zero (see the counterexample); when all four
header counts are zero, appending arbitrary trailing bytes provably never
changes the decoded message. -/
theorem c10_append_preserved_of_zero_counts (fuel : Nat) (b extra : List Nat)
    (h0 : Header) (hlen : 12 ≤ b.length)
    (hhdr : headerTryFrom12 (b.take 12) = .ok h0)
    (hq : h0.questionCount = 0) (ha : h0.answerCount = 0)
    (hn : h0.authorityCount = 0) (hr : h0.addtionalCount = 0) :
    decodeMessage fuel (b ++ extra) = decodeMessage fuel b := by
  have hb : decodeMessage fuel b = .ok ⟨h0, [], [], [], []⟩ := by
    unfold decodeMessage
    rw [if_neg (by omega)]
    simp only [hhdr, hq, ha, hn, hr, parseQuestions, parseRecords]
  have hbe : decodeMessage fuel (b ++ extra) = .ok ⟨h0, [], [], [], []⟩ := by
    unfold decodeMessage
    rw [if_neg (by simp only [List.length_append]; omega)]
    rw [List.take_append_of_le_length hlen]
    simp only [hhdr, hq, ha, hn, hr, parseQuestions, parseRecords]
  rw [hb, hbe]

/-- C10 witness: the amended theorem applied at the all-zero 12-byte
header with `[1, 2, 3]` appended. -/
theorem c10_append_preserved_witness :
    decodeMessage 3 (List.replicate 12 0 ++ [1, 2, 3]) =
      decodeMessage 3 (List.replicate 12 0) :=
  c10_append_preserved_of_zero_counts 3 (List.replicate 12 0) [1, 2, 3]
    ⟨0, .query, .standardQuery, false, false, false, false, .ok (), 0, 0, 0, 0⟩
    (by decide) (by decide) rfl rfl rfl rfl

/-- C1: the message round-trip FAILS on a valid pointer-free message.  A
message with one SOA answer (root names, serial 1, refresh 2, retry 3,
expire 4, minimum 5) encodes fine, but decoding the encoding yields a
DIFFERENT message: `parse_soa` resets its cursor with
`buf = &value[offset..]` after the second name — using only the second
name's consumed count instead of the running total — so the five 32-bit
fields are read one byte early, giving serial 0, refresh 2^24, retry
2*2^24, expire 3*2^24 and minimum 4*2^24. -/
theorem c1_soa_roundtrip_fails :
    encodeMessage ⟨⟨0, .response, .standardQuery, false, false, false, false,
      .ok (), 0, 1, 0, 0⟩, [],
      [⟨.sequence [], .IN, 0, .soa (.sequence []) (.sequence []) 1 2 3 4 5⟩],
      [], []⟩ =
      some [0, 0, 128, 0, 0, 0, 0, 1, 0, 0, 0, 0,
        0, 0, 6, 0, 1, 0, 0, 0, 0, 0, 22,
        0, 0, 0, 0, 0, 1, 0, 0, 0, 2, 0, 0, 0, 3, 0, 0, 0, 4, 0, 0, 0, 5] ∧
    decodeMessage 9 [0, 0, 128, 0, 0, 0, 0, 1, 0, 0, 0, 0,
        0, 0, 6, 0, 1, 0, 0, 0, 0, 0, 22,
        0, 0, 0, 0, 0, 1, 0, 0, 0, 2, 0, 0, 0, 3, 0, 0, 0, 4, 0, 0, 0, 5] =
      .ok ⟨⟨0, .response, .standardQuery, false, false, false, false,
        .ok (), 0, 1, 0, 0⟩, [],
        [⟨.sequence [], .IN, 0,
          .soa (.sequence []) (.sequence []) 0 16777216 33554432 50331648 67108864⟩],
        [], []⟩ ∧
    (⟨⟨0, .response, .standardQuery, false, false, false, false,
        .ok (), 0, 1, 0, 0⟩, [],
        [⟨.sequence [], .IN, 0,
          .soa (.sequence []) (.sequence []) 0 16777216 33554432 50331648 67108864⟩],
        [], []⟩ : Message) ≠
      ⟨⟨0, .response, .standardQuery, false, false, false, false,
        .ok (), 0, 1, 0, 0⟩, [],
        [⟨.sequence [], .IN, 0, .soa (.sequence []) (.sequence []) 1 2 3 4 5⟩],
        [], []⟩ := by
  refine ⟨rfl, rfl, by decide⟩

end DnsCodec
